import Mathlib

/-!
Shallow embedding of `loader.py`, the UI front-end for an Arduino-based
sample dispenser.  The embedding covers the pieces the verification needs:

* the protocol driver `ArduinoLink` (`Send`, `Tick`, `SetTimer`) together
  with its interlock timer and the three registered control groups
  (loader, motor 1, motor 2);
* the button handlers `AppControl.onStopButtonClick`,
  `LoaderControl.btnGo_click` and `LoaderControl.btnLoad_click`;
* the session gate `LoginControl.onSaveButtonClick` / `LogSessionInfo`;
* the barcode-scanner keystroke heuristic `_HandleAccession` /
  `_HandleSample` (the two handlers are textually identical up to which
  confirmation variable is set and which widget receives focus, so they
  are embedded once as `handleScanKey`).

Python state (instance attributes, the Tk text widget, the serial
connection, the log file) becomes explicit state passing: a `LinkState`
value plus an `Effects` record listing the strings written to the serial
device, the lines inserted into the trace widget, and the
timestamp/payload pairs appended to the log file during one handler run.
Wall-clock timestamps are passed in as explicit parameters.
-/

/-- Enabled/disabled state of the three control groups that the session
gate manipulates (`loaderControl`, `m1Control`, `m2Control`);
`true` = the Tk widgets are in state `normal`, `false` = `disable`. -/
structure Controls where
  loader : Bool
  m1 : Bool
  m2 : Bool
deriving Repr, DecidableEq

/-- State of `ArduinoLink` (plus the enabled/disabled state of the three
control groups it drives).  `inbound` models the bytes currently buffered
on the serial connection (`self._conn`), `registered` whether
`InitializeUiStateControl` has stored the three control objects
(`self._loaderControl != None` etc.). -/
structure LinkState where
  debug : Bool
  registered : Bool
  timer : Int
  timerActive : Bool
  loaderEnabled : Bool
  m1Enabled : Bool
  m2Enabled : Bool
  inbound : String
deriving Repr, DecidableEq

/-- Observable output of one handler run: strings written to the serial
device (`self._conn.write`), lines inserted into the trace widget
(`self._trace._textwidget.insert`), and (timestamp, payload) lines
appended to the log file. -/
structure Effects where
  wire : List String
  trace : List String
  log : List (Nat × String)
deriving Repr, DecidableEq

def Effects.empty : Effects := ⟨[], [], []⟩

def Effects.append (a b : Effects) : Effects :=
  ⟨a.wire ++ b.wire, a.trace ++ b.trace, a.log ++ b.log⟩

/-- `self._conn.inWaiting()`: number of bytes buffered on the serial
connection. -/
def inWaiting (s : LinkState) : Nat := s.inbound.length

/-- `self._conn.read(n)`: return the first `n` buffered bytes and remove
them from the buffer. -/
def conn_read (s : LinkState) (n : Nat) : String × LinkState :=
  (⟨s.inbound.toList.take n⟩, { s with inbound := ⟨s.inbound.toList.drop n⟩ })

/-- `ArduinoLink.DisableUiControls`. -/
def DisableUiControls (s : LinkState) : LinkState :=
  { s with loaderEnabled := false, m1Enabled := false, m2Enabled := false }

/-- `ArduinoLink.EnableUiControls`. -/
def EnableUiControls (s : LinkState) : LinkState :=
  { s with loaderEnabled := true, m1Enabled := true, m2Enabled := true }

/-- `ArduinoLink.Send(cmd)`: append one timestamped log line whose payload
is `cmd`, insert one `>>>`-prefixed line into the trace widget, and (when
not in debug mode) write `cmd + '='` to the serial connection.  `t` is the
value of `datetime.datetime.now()` at the call. -/
def Send (s : LinkState) (t : Nat) (cmd : String) : LinkState × Effects :=
  (s, { wire := if s.debug = false then [cmd ++ "="] else [],
        trace := [">>>" ++ cmd ++ "\n"],
        log := [(t, cmd)] })

/-- `ArduinoLink.SetTimer(duration)`: disable the registered control
groups (when all three are registered), load the tick counter and mark it
active. -/
def SetTimer (s : LinkState) (duration : Int) : LinkState :=
  let s1 := if s.registered = true then DisableUiControls s else s
  { s1 with timer := duration, timerActive := true }

/-- First block of `ArduinoLink.Tick()`: poll the serial connection
(unless in debug mode) — if any bytes are buffered, read exactly that
many, insert one `<<<`-prefixed line into the trace widget and append one
timestamped log line with the bytes as payload. -/
def pollStep (s : LinkState) (t : Nat) : LinkState × Effects :=
  if s.debug = false then
    if inWaiting s > 0 then
      ((conn_read s (inWaiting s)).2,
       { wire := [],
         trace := ["<<<" ++ (conn_read s (inWaiting s)).1 ++ "\n"],
         log := [(t, (conn_read s (inWaiting s)).1)] })
    else (s, Effects.empty)
  else (s, Effects.empty)

/-- Second block of `ArduinoLink.Tick()`: if the interlock timer is
active, decrement it, and on reaching `<= 0` re-enable the control groups
and deactivate the timer. -/
def timerStep (s : LinkState) : LinkState :=
  if s.timerActive = true then
    if s.timer - 1 ≤ 0 then
      { EnableUiControls { s with timer := s.timer - 1 } with
        timerActive := false }
    else { s with timer := s.timer - 1 }
  else s

/-- `ArduinoLink.Tick()`: the poll block followed by the countdown block.
(The re-arming `self._root.after(100, self.Tick)` is modelled by
iterating `Tick`, see `ticks`.) -/
def Tick (s : LinkState) (t : Nat) : LinkState × Effects :=
  (timerStep (pollStep s t).1, (pollStep s t).2)

/-- Iterated ticks: `ticks t s k` is the `LinkState` after `k` firings of
the 100 ms timer callback starting from `s` (timestamps on intermediate
log lines are irrelevant to the state, so a single `t` is threaded). -/
def ticks (t : Nat) : LinkState → Nat → LinkState
  | s, 0 => s
  | s, k + 1 => ticks t (Tick s t).1 k

/-- `AppControl.onStopButtonClick`: send the stop command looked up from
the command table, then re-enable the control groups. -/
def onStopButtonClick (s : LinkState) (t : Nat) (stopCmd : String) :
    LinkState × Effects :=
  let (s1, e) := Send s t stopCmd
  (EnableUiControls s1, e)

/-- One record of the profile table `psdProfiles`: a label, an optional
command string per motor, and an optional execution time in seconds
(`int(selectedProfile[0]["time"])`). -/
structure Profile where
  label : String
  m1 : Option String
  m2 : Option String
  time : Option Int
deriving Repr, DecidableEq

/-- `LoaderControl.btnGo_click`, applied to the profile selected in the
combo box: when the profile's `time` field is non-null, set the interlock
timer to `time * 10` (seconds → 100 ms ticks); nothing else happens — in
particular no `Send`. -/
def btnGo_click (s : LinkState) (p : Profile) : LinkState × Effects :=
  match p.time with
  | some d => (SetTimer s (d * 10), Effects.empty)
  | none => (s, Effects.empty)

/-- `LoaderControl.btnLoad_click`, applied to the profile selected in the
combo box: send the profile's `m1` command when present, then its `m2`
command when present.  `t1`, `t2` are the timestamps of the two possible
`Send` calls. -/
def btnLoad_click (s : LinkState) (t1 t2 : Nat) (p : Profile) :
    LinkState × Effects :=
  match p.m1 with
  | some c1 =>
    let (s1, e1) := Send s t1 c1
    (match p.m2 with
     | some c2 =>
       let (s2, e2) := Send s1 t2 c2
       (s2, Effects.append e1 e2)
     | none => (s1, e1))
  | none =>
    match p.m2 with
    | some c2 => Send s t2 c2
    | none => (s, Effects.empty)

/-! ### Session gate (`LoginControl`) -/

/-- The five entry variables of `LoginControl` plus whether the entry
widgets accept input (`true` = `normal`, `false` = `disable`). -/
structure SessionState where
  oper : String
  accession : String
  accessionConf : String
  sample : String
  sampleConf : String
  entriesEnabled : Bool
deriving Repr, DecidableEq

/-- `LoginControl.LogSessionInfo`: the (timestamp, payload) log line
recording a committed session. -/
def LogSessionInfo (t : Nat) (operatorStr sampleStr accessionStr : String) :
    Nat × String :=
  (t, " operator=" ++ operatorStr ++ " sample=" ++ sampleStr
        ++ " accession=" ++ accessionStr)

/-- Result of one `Save` click: the entry fields afterwards, the state the
three dependent control groups were put into, and the log lines written. -/
structure SaveResult where
  session : SessionState
  controls : Controls
  log : List (Nat × String)
deriving Repr, DecidableEq

/-- `LoginControl.onSaveButtonClick`: reject (disabling the dependent
control groups) when the operator field is empty, or either identifier is
empty or differs from its confirmation; otherwise log the session record,
enable the dependent control groups and lock the entry widgets. -/
def onSaveButtonClick (st : SessionState) (t : Nat) : SaveResult :=
  if st.oper == "" || st.accession == "" || st.accession != st.accessionConf
      || st.sample == "" || st.sample != st.sampleConf then
    { session := st, controls := ⟨false, false, false⟩, log := [] }
  else
    { session := { st with entriesEnabled := false },
      controls := ⟨true, true, true⟩,
      log := [LogSessionInfo t st.oper st.sample st.accession] }

/-- The spec's acceptance condition for `Commit`, written from the spec's
words: operator non-empty, sample equal to its confirmation with both
non-empty, accession equal to its confirmation with both non-empty. -/
def commitOkSpec (st : SessionState) : Prop :=
  st.oper ≠ "" ∧
  st.sample = st.sampleConf ∧ st.sample ≠ "" ∧ st.sampleConf ≠ "" ∧
  st.accession = st.accessionConf ∧ st.accession ≠ "" ∧ st.accessionConf ≠ ""

instance (st : SessionState) : Decidable (commitOkSpec st) := by
  unfold commitOkSpec; infer_instance

/-! ### Barcode-scanner heuristic (`_HandleAccession` / `_HandleSample`)

The two trace callbacks are identical except for which confirmation
variable they set (`_accessionConfVar` resp. `_sampleConfVar`) and which
widget receives focus afterwards, so they are embedded once.  Keystroke
arrival times (`timeit.default_timer()`) are modelled as rationals. -/

/-- The observable state of one identifier field: its current text, its
confirmation field's text, the shared keystroke arrival-time array
`self._arrivalTime`, and whether focus has been moved on. -/
structure ScanField where
  value : String
  conf : String
  arrival : List (Option ℚ)
  focusMoved : Bool
deriving DecidableEq

/-- One firing of the variable-trace callback (`_HandleAccession` /
`_HandleSample`) with the field already holding `st.value` and `now` the
current clock.  The index of the newest character is `len - 1` (as in the
Python, an `Int`, since the callback also fires on deletions); when it is
in range the arrival time is recorded (the callback's reassignment of a
*local* `arrivalTime` on index 0 has no effect on `self._arrivalTime` and
is modelled by nothing); when the index equals `barcodeLen - 1` the first
and last recorded times are compared, and a gap under 0.25 s copies the
value into the confirmation variable and moves focus.  `none` models the
`TypeError` the Python raises if either compared slot still holds
`None`. -/
def handleScanKey (n : Nat) (st : ScanField) (now : ℚ) : Option ScanField :=
  let idx : Int := (st.value.length : Int) - 1
  let arrival :=
    if 0 ≤ idx ∧ idx < (n : Int) then st.arrival.set idx.toNat (some now)
    else st.arrival
  let st1 := { st with arrival := arrival }
  if idx = (n : Int) - 1 then
    match st1.arrival.getD (n - 1) none, st1.arrival.getD 0 none with
    | some tLast, some tFirst =>
      some (if tLast - tFirst < 1/4 then
              { st1 with conf := st1.value, focusMoved := true }
            else st1)
    | _, _ => none
  else some st1

/-- Type a sequence of keystrokes into the field: each key appends its
character to the entry variable (which fires the trace callback) at its
arrival time. -/
def typeKeys (n : Nat) (st : ScanField) : List (Char × ℚ) → Option ScanField
  | [] => some st
  | (c, t) :: rest => do
    let st1 ← handleScanKey n { st with value := st.value.push c } t
    typeKeys n st1 rest

/-- The field before any keystroke: empty text, confirmation `conf0`, the
arrival array freshly `[None] * barcodeLen`, focus not yet moved. -/
def initScan (n : Nat) (conf0 : String) : ScanField :=
  { value := "", conf := conf0, arrival := List.replicate n none,
    focusMoved := false }

/-- The field after the keystroke prefix `pre` has been typed (and no
comparison has fired yet). -/
def scanAfter (n : Nat) (conf0 : String) (pre : List (Char × ℚ)) : ScanField :=
  { value := ⟨pre.map Prod.fst⟩,
    conf := conf0,
    arrival := pre.map (fun p => some p.2)
                 ++ List.replicate (n - pre.length) none,
    focusMoved := false }

/-! ### Abbreviations used in the statements -/

/-- All three registered control groups disabled. -/
def controlsOff (s : LinkState) : Prop :=
  s.loaderEnabled = false ∧ s.m1Enabled = false ∧ s.m2Enabled = false

/-- All three registered control groups enabled. -/
def controlsOn (s : LinkState) : Prop :=
  s.loaderEnabled = true ∧ s.m1Enabled = true ∧ s.m2Enabled = true

instance (s : LinkState) : Decidable (controlsOff s) := by
  unfold controlsOff; infer_instance

instance (s : LinkState) : Decidable (controlsOn s) := by
  unfold controlsOn; infer_instance

/-- A concrete idle `LinkState` (debug off, controls registered and
enabled, nothing buffered) used by the concrete-input theorems. -/
def lkDemo : LinkState :=
  { debug := false, registered := true, timer := 0, timerActive := false,
    loaderEnabled := true, m1Enabled := true, m2Enabled := true,
    inbound := "" }

/-- `lkDemo` with three device bytes buffered on the serial connection. -/
def lkDemoIn : LinkState := { lkDemo with inbound := "ok=" }

/-- A concrete profile with an `m1` command, no `m2` command, and a
3-second duration. -/
def profDemo : Profile :=
  { label := "short fwd", m1 := some "FWD_SHORT", m2 := none, time := some 3 }

/-! ## Claims -/

/-- Claim C1: for every command string `c`, `Send(c)` writes exactly the
bytes `c` followed by the single terminator character `=` to the
Transport, and produces exactly one outbound trace record (prefixed
`>>>`) and exactly one timestamped log line whose payload is `c` without
the trailing terminator.  (Outside debug mode, where a real Transport is
in use.) -/
theorem c1_send (s : LinkState) (t : Nat) (c : String) (h : s.debug = false) :
    Send s t c =
      (s, { wire := [c ++ "="], trace := [">>>" ++ c ++ "\n"],
            log := [(t, c)] }) := by
  simp [Send, h]

theorem c1_send_witness :
    Send lkDemo 7 "m1f400" =
      (lkDemo, { wire := ["m1f400="], trace := [">>>m1f400\n"],
                 log := [(7, "m1f400")] }) := by
  have h := c1_send lkDemo 7 "m1f400" rfl
  simpa using h

/-- Claim C2 counterexample: with the interlock busy (`timer = 5`,
`timerActive = true`), the user's Stop click does *not* transition the
interlock to Idle: the busy flag is still set and the countdown value is
untouched afterwards, so the countdown remains active. -/
theorem c2_counterexample :
    ((onStopButtonClick
        { debug := false, registered := true, timer := 5, timerActive := true,
          loaderEnabled := false, m1Enabled := false, m2Enabled := false,
          inbound := "" } 0 "stop").1.timerActive = true) ∧
    ((onStopButtonClick
        { debug := false, registered := true, timer := 5, timerActive := true,
          loaderEnabled := false, m1Enabled := false, m2Enabled := false,
          inbound := "" } 0 "stop").1.timer = 5) :=
  ⟨rfl, rfl⟩

/-- Claim C2 (amended): for every Interlock state, the user's Stop action
immediately re-enables all registered control groups without waiting for
the countdown to expire, and emits the stop command's trace and log
records; however it does not clear the busy flag or deactivate the
countdown — `timerActive` and `timer` are unchanged, and the countdown
continues until it expires on its own. -/
theorem c2_stop_reenables (s : LinkState) (t : Nat) (c : String) :
    (onStopButtonClick s t c).1.loaderEnabled = true ∧
    (onStopButtonClick s t c).1.m1Enabled = true ∧
    (onStopButtonClick s t c).1.m2Enabled = true ∧
    (onStopButtonClick s t c).1.timerActive = s.timerActive ∧
    (onStopButtonClick s t c).1.timer = s.timer ∧
    (onStopButtonClick s t c).2.trace = [">>>" ++ c ++ "\n"] ∧
    (onStopButtonClick s t c).2.log = [(t, c)] := by
  simp [onStopButtonClick, Send, EnableUiControls]

/-- Claim C9: sending Stop while the Interlock is Idle leaves the
Interlock state unchanged (busy flag still false, countdown value
untouched, hence inactive) but still produces exactly one outbound trace
record and one timestamped log line for the stop command. -/
theorem c9_stop_idle (s : LinkState) (t : Nat) (c : String)
    (h : s.timerActive = false) :
    (onStopButtonClick s t c).1.timerActive = false ∧
    (onStopButtonClick s t c).1.timer = s.timer ∧
    (onStopButtonClick s t c).2.trace = [">>>" ++ c ++ "\n"] ∧
    (onStopButtonClick s t c).2.log = [(t, c)] := by
  simp [onStopButtonClick, Send, EnableUiControls, h]

theorem c9_stop_idle_witness :
    (onStopButtonClick lkDemo 2 "stop").1.timerActive = false ∧
    (onStopButtonClick lkDemo 2 "stop").1.timer = lkDemo.timer ∧
    (onStopButtonClick lkDemo 2 "stop").2.trace = [">>>" ++ "stop" ++ "\n"] ∧
    (onStopButtonClick lkDemo 2 "stop").2.log = [(2, "stop")] :=
  c9_stop_idle lkDemo 2 "stop" rfl

/-- Claim C10: invoking Go never writes any command to the Transport and
produces no trace or log record: for every selected profile, the Go
action only sets the interlock countdown (when the profile's duration is
non-null, to `duration * 10` ticks) and leaves the Transport output, the
trace window and the log unchanged; in particular the `go` command from
the command table is never sent by it. -/
theorem c10_go_silent (s : LinkState) (p : Profile) :
    (btnGo_click s p).2 = Effects.empty ∧
    (btnGo_click s p).1.inbound = s.inbound ∧
    (btnGo_click s p).1.debug = s.debug ∧
    (p.time = none → (btnGo_click s p).1 = s) ∧
    (∀ d, p.time = some d →
      (btnGo_click s p).1.timerActive = true ∧
      (btnGo_click s p).1.timer = d * 10) := by
  cases hp : p.time with
  | none => simp [btnGo_click, hp]
  | some d =>
    refine ⟨by simp [btnGo_click, hp], ?_, ?_, by simp [hp], ?_⟩ <;>
      simp [btnGo_click, hp, SetTimer, DisableUiControls] <;>
      split <;> simp

theorem c10_go_silent_witness :
    (btnGo_click lkDemo profDemo).2 = Effects.empty ∧
    (btnGo_click lkDemo profDemo).1.inbound = lkDemo.inbound ∧
    (btnGo_click lkDemo profDemo).1.debug = lkDemo.debug ∧
    (profDemo.time = none → (btnGo_click lkDemo profDemo).1 = lkDemo) ∧
    (∀ d, profDemo.time = some d →
      (btnGo_click lkDemo profDemo).1.timerActive = true ∧
      (btnGo_click lkDemo profDemo).1.timer = d * 10) :=
  c10_go_silent lkDemo profDemo

/-- Reading exactly the number of buffered bytes returns the whole buffer
and leaves it empty. -/
theorem conn_read_all (s : LinkState) :
    conn_read s (inWaiting s) = (s.inbound, { s with inbound := "" }) := by
  unfold conn_read inWaiting
  refine Prod.ext ?_ ?_
  · show (⟨s.inbound.toList.take s.inbound.length⟩ : String) = s.inbound
    rw [show s.inbound.length = s.inbound.toList.length from
        (String.length_data s.inbound).symm,
      List.take_length]
    rfl
  · show ({ s with inbound := ⟨s.inbound.toList.drop s.inbound.length⟩ }
        : LinkState) = _
    rw [show s.inbound.length = s.inbound.toList.length from
        (String.length_data s.inbound).symm,
      List.drop_length]

theorem string_ne_empty_length (x : String) (h : x ≠ "") : 0 < x.length := by
  rcases x with ⟨l⟩
  cases l with
  | nil => exact absurd rfl h
  | cons a l => simp [String.length]

/-- The countdown block never touches the serial buffer. -/
theorem timerStep_inbound (s : LinkState) : (timerStep s).inbound = s.inbound := by
  unfold timerStep EnableUiControls
  split
  · split <;> rfl
  · rfl

/-- Claim C6: on every tick (outside debug mode), if `N > 0` bytes are
available on the Transport the poll reads exactly those `N` bytes
without blocking — leaving the buffer empty — and emits them as one
inbound display unit prefixed `<<<` (distinct from the outbound `>>>`
prefix) plus one timestamped log line, with no terminator-based
re-segmentation (the unit is the whole poll window, whatever characters
it contains); if zero bytes are available, nothing is read, displayed or
logged. -/
theorem c6_poll (s : LinkState) (t : Nat) (h : s.debug = false) :
    (s.inbound ≠ "" →
      (Tick s t).2 = { wire := [], trace := ["<<<" ++ s.inbound ++ "\n"],
                       log := [(t, s.inbound)] } ∧
      (Tick s t).1.inbound = "") ∧
    (s.inbound = "" →
      (Tick s t).2 = Effects.empty ∧
      (Tick s t).1.inbound = "") := by
  constructor
  · intro hne
    have hlen : inWaiting s > 0 := string_ne_empty_length s.inbound hne
    have h2 : pollStep s t =
        ({ s with inbound := "" },
         { wire := [], trace := ["<<<" ++ s.inbound ++ "\n"],
           log := [(t, s.inbound)] }) := by
      unfold pollStep
      rw [if_pos h, if_pos hlen, conn_read_all]
    constructor
    · show (pollStep s t).2 = _
      rw [h2]
    · show (timerStep (pollStep s t).1).inbound = ""
      rw [timerStep_inbound, h2]
  · intro he
    have hlen : ¬ inWaiting s > 0 := by
      unfold inWaiting
      rw [he]; simp [String.length]
    have h2 : pollStep s t = (s, Effects.empty) := by
      unfold pollStep
      rw [if_pos h, if_neg hlen]
    constructor
    · show (pollStep s t).2 = _
      rw [h2]
    · show (timerStep (pollStep s t).1).inbound = ""
      rw [timerStep_inbound, h2, he]

theorem c6_poll_witness :
    (Tick lkDemoIn 3).2 = { wire := [],
                            trace := ["<<<" ++ lkDemoIn.inbound ++ "\n"],
                            log := [(3, lkDemoIn.inbound)] } ∧
    (Tick lkDemoIn 3).1.inbound = "" :=
  (c6_poll lkDemoIn 3 rfl).1 (by decide)

/-- Claim C4: for every combination of field values, the session gate's
Commit (the Save click) succeeds — putting the three dependent control
groups into the enabled state — if and only if the operator field is
non-empty, the sample field equals its confirmation with both non-empty,
and the accession field equals its confirmation with both non-empty; for
every other combination it is rejected and the dependent control groups
are (re-)disabled. -/
theorem c4_commit_iff (st : SessionState) (t : Nat) :
    (onSaveButtonClick st t).controls =
      (if commitOkSpec st then ⟨true, true, true⟩
       else ⟨false, false, false⟩) := by
  unfold onSaveButtonClick commitOkSpec
  by_cases h1 : st.oper = "" <;> by_cases h2 : st.accession = "" <;>
    by_cases h3 : st.accession = st.accessionConf <;>
    by_cases h4 : st.sample = "" <;> by_cases h5 : st.sample = st.sampleConf <;>
    simp_all

/-- Claim C5: a session record carrying the operator, sample id,
accession id and a timestamp is appended to the external log if and only
if Commit succeeds; on a rejected Commit no log line is written and the
session fields are left exactly as they were (atomicity on rejection). -/
theorem c5_commit_log_atomic (st : SessionState) (t : Nat) :
    ((onSaveButtonClick st t).log =
      if commitOkSpec st then [LogSessionInfo t st.oper st.sample st.accession]
      else []) ∧
    ((onSaveButtonClick st t).session =
      if commitOkSpec st then { st with entriesEnabled := false } else st) := by
  unfold onSaveButtonClick commitOkSpec
  constructor <;>
  · by_cases h1 : st.oper = "" <;> by_cases h2 : st.accession = "" <;>
      by_cases h3 : st.accession = st.accessionConf <;>
      by_cases h4 : st.sample = "" <;> by_cases h5 : st.sample = st.sampleConf <;>
      simp_all

/-- Claim C8: a motor command is written to the serial device exactly
when the profile defines it; in particular, for every profile whose `m1`
command is set and whose `m2` command is absent, invoking Load sends
exactly one command — the `m1` string, with the terminator appended on
the wire — with one trace record and one log line, and issues nothing
for the absent motor. -/
theorem c8_load (s : LinkState) (t1 t2 : Nat) (p : Profile)
    (hd : s.debug = false) :
    ((btnLoad_click s t1 t2 p).2.wire =
      (p.m1.map (fun c => c ++ "=")).toList
        ++ (p.m2.map (fun c => c ++ "=")).toList) ∧
    (∀ c, p.m1 = some c → p.m2 = none →
      (btnLoad_click s t1 t2 p).2 =
        { wire := [c ++ "="], trace := [">>>" ++ c ++ "\n"],
          log := [(t1, c)] }) := by
  cases hm1 : p.m1 <;> cases hm2 : p.m2 <;>
    simp [btnLoad_click, Send, Effects.append, Effects.empty, hm1, hm2, hd]

theorem c8_load_witness :
    ((btnLoad_click lkDemo 1 2 profDemo).2.wire =
      (profDemo.m1.map (fun c => c ++ "=")).toList
        ++ (profDemo.m2.map (fun c => c ++ "=")).toList) ∧
    (∀ c, profDemo.m1 = some c → profDemo.m2 = none →
      (btnLoad_click lkDemo 1 2 profDemo).2 =
        { wire := [c ++ "="], trace := [">>>" ++ c ++ "\n"],
          log := [(1, c)] }) :=
  c8_load lkDemo 1 2 profDemo rfl

/-- The poll block never touches the interlock timer or the control
groups. -/
theorem pollStep_timer_fields (s : LinkState) (t : Nat) :
    (pollStep s t).1.timer = s.timer ∧
    (pollStep s t).1.timerActive = s.timerActive ∧
    (pollStep s t).1.loaderEnabled = s.loaderEnabled ∧
    (pollStep s t).1.m1Enabled = s.m1Enabled ∧
    (pollStep s t).1.m2Enabled = s.m2Enabled := by
  unfold pollStep conn_read
  split
  · split <;> exact ⟨rfl, rfl, rfl, rfl, rfl⟩
  · exact ⟨rfl, rfl, rfl, rfl, rfl⟩

/-- One tick while the interlock is busy: the counter drops by one; while
it stays positive the busy flag and the control groups are untouched, and
on reaching zero (or below) the busy flag clears and the control groups
are re-enabled. -/
theorem Tick_busy (s : LinkState) (t : Nat) (ha : s.timerActive = true) :
    (Tick s t).1.timer = s.timer - 1 ∧
    (1 ≤ s.timer - 1 →
      (Tick s t).1.timerActive = true ∧
      (Tick s t).1.loaderEnabled = s.loaderEnabled ∧
      (Tick s t).1.m1Enabled = s.m1Enabled ∧
      (Tick s t).1.m2Enabled = s.m2Enabled) ∧
    (s.timer - 1 ≤ 0 →
      (Tick s t).1.timerActive = false ∧ controlsOn (Tick s t).1) := by
  obtain ⟨hT, hA, hL, h1, h2⟩ := pollStep_timer_fields s t
  have ha' : (pollStep s t).1.timerActive = true := by rw [hA, ha]
  have htick : (Tick s t).1 = timerStep (pollStep s t).1 := rfl
  by_cases hz : s.timer - 1 ≤ 0
  · have hz' : (pollStep s t).1.timer - 1 ≤ 0 := by rw [hT]; exact hz
    have hstep : timerStep (pollStep s t).1 =
        { (pollStep s t).1 with
          timer := (pollStep s t).1.timer - 1
          timerActive := false
          loaderEnabled := true
          m1Enabled := true
          m2Enabled := true } := by
      unfold timerStep EnableUiControls
      rw [if_pos ha', if_pos hz']
    rw [htick, hstep]
    refine ⟨by simp [hT], fun hge => absurd hge (by omega),
      fun _ => ⟨rfl, ⟨rfl, rfl, rfl⟩⟩⟩
  · have hz' : ¬ (pollStep s t).1.timer - 1 ≤ 0 := by rw [hT]; exact hz
    have hstep : timerStep (pollStep s t).1 =
        { (pollStep s t).1 with timer := (pollStep s t).1.timer - 1 } := by
      unfold timerStep
      rw [if_pos ha', if_neg hz']
    rw [htick, hstep]
    refine ⟨by simp [hT],
      fun _ => ⟨by simp [hA, ha], by simp [hL], by simp [h1], by simp [h2]⟩,
      fun hle => absurd hle (by omega)⟩

/-- Running a busy interlock with counter `m ≥ 1` and controls disabled:
for every `k < m` ticks it is still busy with counter `m - k` and the
controls still disabled, and after exactly `m` ticks it is idle with the
controls re-enabled. -/
theorem ticks_busy_run (t : Nat) :
    ∀ (m : Nat) (s : LinkState), 1 ≤ m → s.timerActive = true →
      s.timer = (m : Int) → controlsOff s →
      (∀ k : Nat, k < m →
        (ticks t s k).timerActive = true ∧
        (ticks t s k).timer = (m : Int) - (k : Int) ∧
        controlsOff (ticks t s k)) ∧
      (ticks t s m).timerActive = false ∧ controlsOn (ticks t s m) := by
  intro m
  induction m with
  | zero => intro s h; omega
  | succ m ih =>
    intro s _ ha htimer hoff
    obtain ⟨hstepT, hstepPos, hstepZero⟩ := Tick_busy s t ha
    by_cases hm : m = 0
    · subst hm
      have hz : s.timer - 1 ≤ 0 := by omega
      obtain ⟨hA', hOn'⟩ := hstepZero hz
      refine ⟨?_, ?_, ?_⟩
      · intro k hk
        have : k = 0 := by omega
        subst this
        exact ⟨ha, by simpa using htimer, hoff⟩
      · show (ticks t (Tick s t).1 0).timerActive = false
        simpa [ticks] using hA'
      · show controlsOn (ticks t (Tick s t).1 0)
        simpa [ticks] using hOn'
    · have hm1 : 1 ≤ m := by omega
      have hpos : 1 ≤ s.timer - 1 := by omega
      obtain ⟨hA', hL', h1', h2'⟩ := hstepPos hpos
      have hoff' : controlsOff (Tick s t).1 := by
        obtain ⟨a, b, c⟩ := hoff
        exact ⟨by rw [hL', a], by rw [h1', b], by rw [h2', c]⟩
      have htimer' : (Tick s t).1.timer = (m : Int) := by
        rw [hstepT, htimer]; push_cast; ring
      obtain ⟨hinv, hendA, hendOn⟩ := ih (Tick s t).1 hm1 hA' htimer' hoff'
      refine ⟨?_, ?_, ?_⟩
      · intro k hk
        cases k with
        | zero => exact ⟨ha, by simpa using htimer, hoff⟩
        | succ j =>
          have hj : j < m := by omega
          obtain ⟨x, y, z⟩ := hinv j hj
          refine ⟨x, ?_, z⟩
          rw [show ticks t s (j + 1) = ticks t (Tick s t).1 j from rfl, y]
          push_cast; ring
      · show (ticks t (Tick s t).1 m).timerActive = false
        exact hendA
      · exact hendOn

/-- Claim C3 counterexample: for a profile whose configured duration is
`d = 0` whole seconds (so the claimed `n = d * 10 = 0`), Go puts the
interlock into the busy state (`timerActive = true`) with the control
groups disabled, so after exactly `n = 0` subsequent ticks it has *not*
transitioned back to Idle as the claim requires — it returns to Idle only
one tick later. -/
theorem c3_counterexample :
    (ticks 0 (btnGo_click lkDemo
        { label := "nop", m1 := none, m2 := none,
          time := some 0 }).1 0).timerActive = true ∧
    controlsOff (ticks 0 (btnGo_click lkDemo
        { label := "nop", m1 := none, m2 := none, time := some 0 }).1 0) := by
  decide

/-- Claim C3 (amended): for every profile whose configured duration is a
known value `d ≥ 1` whole seconds, starting it (Go) transitions the
interlock from Idle to Busy with `n = d * 10` remaining ticks (tick
period 100 ms), disables all registered control groups on entry, and,
absent an intervening Stop, for every `k < n` the interlock is still busy
with the control groups still disabled after `k` ticks, and after exactly
`n` ticks it is back to Idle with the control groups re-enabled exactly at
that transition.  (For `d = 0` the code instead enters Busy(0) and
returns to Idle only on the next tick, see the counterexample.) -/
theorem c3_interlock_run (s : LinkState) (p : Profile) (d : Int) (t : Nat)
    (hreg : s.registered = true) (hd : 1 ≤ d) (hp : p.time = some d) :
    (btnGo_click s p).1.timerActive = true ∧
    (btnGo_click s p).1.timer = d * 10 ∧
    controlsOff (btnGo_click s p).1 ∧
    (∀ k : Nat, (k : Int) < d * 10 →
      (ticks t (btnGo_click s p).1 k).timerActive = true ∧
      controlsOff (ticks t (btnGo_click s p).1 k)) ∧
    ((ticks t (btnGo_click s p).1 (d * 10).toNat).timerActive = false ∧
      controlsOn (ticks t (btnGo_click s p).1 (d * 10).toNat)) := by
  have hgo : (btnGo_click s p).1 = SetTimer s (d * 10) := by
    unfold btnGo_click; rw [hp]
  have hset : SetTimer s (d * 10) =
      { DisableUiControls s with timer := d * 10, timerActive := true } := by
    unfold SetTimer; rw [if_pos hreg]
  rw [hgo, hset]
  have hqA : ({ DisableUiControls s with timer := d * 10, timerActive := true }
      : LinkState).timerActive = true := rfl
  have hqT : ({ DisableUiControls s with timer := d * 10, timerActive := true }
      : LinkState).timer = d * 10 := rfl
  have hqOff : controlsOff
      { DisableUiControls s with timer := d * 10, timerActive := true } :=
    ⟨rfl, rfl, rfl⟩
  have hm : (((d * 10).toNat : Nat) : Int) = d * 10 :=
    Int.toNat_of_nonneg (by omega)
  have h1m : 1 ≤ (d * 10).toNat := by omega
  obtain ⟨hinv, hend⟩ := ticks_busy_run t (d * 10).toNat
    { DisableUiControls s with timer := d * 10, timerActive := true }
    h1m hqA (by rw [hqT, hm]) hqOff
  refine ⟨rfl, rfl, hqOff, ?_, hend⟩
  intro k hk
  have hk' : k < (d * 10).toNat := by omega
  obtain ⟨x, y, z⟩ := hinv k hk'
  exact ⟨x, z⟩

theorem c3_interlock_run_witness :
    (btnGo_click lkDemo profDemo).1.timerActive = true ∧
    (btnGo_click lkDemo profDemo).1.timer = 3 * 10 ∧
    controlsOff (btnGo_click lkDemo profDemo).1 ∧
    (∀ k : Nat, (k : Int) < 3 * 10 →
      (ticks 0 (btnGo_click lkDemo profDemo).1 k).timerActive = true ∧
      controlsOff (ticks 0 (btnGo_click lkDemo profDemo).1 k)) ∧
    ((ticks 0 (btnGo_click lkDemo profDemo).1
        ((3 : Int) * 10).toNat).timerActive = false ∧
      controlsOn (ticks 0 (btnGo_click lkDemo profDemo).1
        ((3 : Int) * 10).toNat)) :=
  c3_interlock_run lkDemo profDemo 3 0 rfl (by decide) rfl

/-- Setting the element just past a prefix writes into the suffix. -/
theorem list_set_append_length {α : Type} (as bs : List α) (v : α) :
    (as ++ bs).set as.length v = as ++ bs.set 0 v := by
  induction as with
  | nil => rfl
  | cons a as ih => simp [ih]

/-- `list_set_append_length` with the index given as an equal number. -/
theorem list_set_append_at {α : Type} (as bs : List α) (v : α) (k : Nat)
    (hk : k = as.length) : (as ++ bs).set k v = as ++ bs.set 0 v := by
  rw [hk, list_set_append_length]

/-- The element just past a prefix of an appended singleton is that
singleton. -/
theorem list_getD_append_length {α : Type} (as : List α) (v d : α) :
    (as ++ [v]).getD as.length d = v := by
  induction as with
  | nil => rfl
  | cons a as ih => simp [ih]

/-- A keystroke that is not yet the `n`-th one merely records its arrival
time: the comparison branch does not fire. -/
theorem handleScanKey_mid (n : Nat) (conf0 : String) (pre : List (Char × ℚ))
    (c : Char) (tq : ℚ) (h : pre.length + 1 < n) :
    handleScanKey n
      { scanAfter n conf0 pre with
        value := (scanAfter n conf0 pre).value.push c } tq
      = some (scanAfter n conf0 (pre ++ [(c, tq)])) := by
  have hrep : List.replicate (n - pre.length) (none : Option ℚ)
      = none :: List.replicate (n - pre.length - 1) none := by
    conv_lhs => rw [show n - pre.length = (n - pre.length - 1) + 1 by omega,
      List.replicate_succ]
  have hset : (List.map (fun p => some p.2) pre
        ++ List.replicate (n - pre.length) (none : Option ℚ)).set
          pre.length (some tq)
      = List.map (fun p => some p.2) pre
        ++ some tq :: List.replicate (n - pre.length - 1) none := by
    rw [list_set_append_at _ _ _ _ (by simp), hrep]
    simp
  unfold handleScanKey scanAfter
  simp only [String.push]
  have hlen : ((⟨List.map Prod.fst pre ++ [c]⟩ : String)).length
      = pre.length + 1 := by
    simp [String.length]
  rw [hlen]
  rw [if_pos (show (0 : Int) ≤ ((pre.length + 1 : Nat) : Int) - 1
      ∧ ((pre.length + 1 : Nat) : Int) - 1 < (n : Int) by
    constructor <;> omega)]
  rw [if_neg (show ¬ ((pre.length + 1 : Nat) : Int) - 1 = (n : Int) - 1 by
    omega)]
  rw [show (((pre.length + 1 : Nat) : Int) - 1).toNat = pre.length by omega]
  rw [hset]
  simp [List.map_append]
  omega


/-- `list_getD_append_length` with the index given as an equal number. -/
theorem list_getD_append_at {α : Type} (as : List α) (v d : α) (k : Nat)
    (hk : k = as.length) : (as ++ [v]).getD k d = v := by
  rw [hk, list_getD_append_length]

/-- Typing any keystroke sequence that stays strictly short of the
barcode length only accumulates text and arrival times. -/
theorem typeKeys_mid (n : Nat) (conf0 : String) :
    ∀ (ks pre : List (Char × ℚ)), pre.length + ks.length < n →
      typeKeys n (scanAfter n conf0 pre) ks
        = some (scanAfter n conf0 (pre ++ ks)) := by
  intro ks
  induction ks with
  | nil => intro pre h; simp [typeKeys]
  | cons k rest ih =>
    intro pre h
    obtain ⟨c, tq⟩ := k
    have hstep := handleScanKey_mid n conf0 pre c tq (by simp at h; omega)
    have hrest := ih (pre ++ [(c, tq)]) (by simp at h ⊢; omega)
    simp only [typeKeys, hstep, Option.bind, List.append_assoc] at hrest ⊢
    simpa [List.append_assoc] using hrest

/-- Typing a single keystroke is one firing of the trace callback. -/
theorem typeKeys_one (n : Nat) (st : ScanField) (c : Char) (tq : ℚ) :
    typeKeys n st [(c, tq)]
      = handleScanKey n { st with value := st.value.push c } tq := by
  cases h : handleScanKey n { st with value := st.value.push c } tq <;>
    simp [typeKeys, h]

/-- The `n`-th keystroke fires the comparison: the gap between the first
and the `n`-th arrival decides whether the confirmation field is
auto-populated and focus moves on. -/
theorem handleScanKey_last (n : Nat) (conf0 : String) (p0 : Char × ℚ)
    (pre : List (Char × ℚ)) (c : Char) (tq : ℚ)
    (hlen : (p0 :: pre).length = n - 1) (hn : 2 ≤ n) :
    handleScanKey n
      { scanAfter n conf0 (p0 :: pre) with
        value := (scanAfter n conf0 (p0 :: pre)).value.push c } tq
      = some (
          if tq - p0.2 < 1/4 then
            { value := ⟨((p0 :: pre) ++ [(c, tq)]).map Prod.fst⟩,
              conf := ⟨((p0 :: pre) ++ [(c, tq)]).map Prod.fst⟩,
              arrival := ((p0 :: pre) ++ [(c, tq)]).map (fun p => some p.2),
              focusMoved := true }
          else
            { value := ⟨((p0 :: pre) ++ [(c, tq)]).map Prod.fst⟩,
              conf := conf0,
              arrival := ((p0 :: pre) ++ [(c, tq)]).map (fun p => some p.2),
              focusMoved := false }) := by
  have hset : (List.map (fun p => some p.2) (p0 :: pre)
        ++ List.replicate (n - (p0 :: pre).length) (none : Option ℚ)).set
          (n - 1) (some tq)
      = List.map (fun p => some p.2) ((p0 :: pre) ++ [(c, tq)]) := by
    rw [list_set_append_at _ _ _ _ (by simp at hlen ⊢; omega), hlen,
      show n - (n - 1) = 1 by omega]
    simp
  unfold handleScanKey scanAfter
  simp only [String.push]
  have hvlen : ((⟨List.map Prod.fst (p0 :: pre) ++ [c]⟩ : String)).length = n := by
    simp [String.length]
    simp at hlen
    omega
  rw [hvlen]
  rw [if_pos (show (0 : Int) ≤ (n : Int) - 1 ∧ (n : Int) - 1 < (n : Int) by
    constructor <;> omega)]
  rw [show ((n : Int) - 1).toNat = n - 1 by omega]
  rw [if_pos rfl]
  rw [hset]
  rw [show List.map (fun p : Char × ℚ => some p.2) ((p0 :: pre) ++ [(c, tq)])
      = (some p0.2 :: List.map (fun p : Char × ℚ => some p.2) pre)
        ++ [some tq] by simp]
  rw [list_getD_append_at _ _ _ _ (by simp at hlen ⊢; omega)]
  rw [show ((some p0.2 :: List.map (fun p : Char × ℚ => some p.2) pre)
        ++ [some tq]).getD 0 none = some p0.2 from rfl]
  dsimp only
  by_cases hq : tq - p0.2 < 1/4
  · rw [if_pos hq, if_pos hq]
    simp
  · rw [if_neg hq, if_neg hq]
    simp

/-- Typing a concatenation of key sequences is typing one after the
other. -/
theorem typeKeys_append (n : Nat) (st : ScanField) (a b : List (Char × ℚ)) :
    typeKeys n st (a ++ b)
      = (typeKeys n st a).bind (fun s1 => typeKeys n s1 b) := by
  induction a generalizing st with
  | nil => simp [typeKeys]
  | cons k rest ih =>
    obtain ⟨c, tq⟩ := k
    cases h : handleScanKey n { st with value := st.value.push c } tq with
    | none => simp [typeKeys, h]
    | some s1 => simp [typeKeys, h, ih]

/-- Claim C7: for an identifier field of the configured barcode length
`n`, typing `n` keystrokes into the empty field: if the elapsed time
between the arrival of the first and the `n`-th keystroke is under 0.25
seconds, the confirmation field is automatically set to the primary
field's value and input focus advances; if the elapsed time is 0.25
seconds or more, the confirmation field and the focus are left
untouched.  (Both `_HandleAccession` and `_HandleSample` instantiate
`handleScanKey`.) -/
theorem c7_scanner (n : Nat) (conf0 : String) (keys : List (Char × ℚ))
    (hlen : keys.length = n) (hn : 1 ≤ n) (k0 kl : Char × ℚ)
    (hfirst : keys.head? = some k0) (hlast : keys.getLast? = some kl) :
    ∃ st, typeKeys n (initScan n conf0) keys = some st ∧
      st.value = ⟨keys.map Prod.fst⟩ ∧
      (kl.2 - k0.2 < 1/4 →
        st.conf = ⟨keys.map Prod.fst⟩ ∧ st.focusMoved = true) ∧
      (1/4 ≤ kl.2 - k0.2 → st.conf = conf0 ∧ st.focusMoved = false) := by
  rcases List.eq_nil_or_concat keys with rfl | ⟨pre, lastK, rfl⟩
  · simp at hlen; omega
  · obtain ⟨c, tq⟩ := lastK
    simp only [List.concat_eq_append] at hlen hfirst hlast ⊢
    have hkl : kl = (c, tq) := by
      rw [List.getLast?_concat] at hlast
      exact (Option.some_inj.mp hlast).symm
    subst hkl
    cases pre with
    | nil =>
      have hn1 : n = 1 := by simp at hlen; omega
      subst hn1
      have hk0 : k0 = (c, tq) := by simp at hfirst; exact hfirst.symm
      subst hk0
      have hcomp : typeKeys 1 (initScan 1 conf0) [(c, tq)]
          = some { value := ⟨[c]⟩, conf := ⟨[c]⟩, arrival := [some tq],
                   focusMoved := true } := by
        rw [typeKeys_one]
        unfold handleScanKey initScan
        simp [String.push, String.length, sub_self]
      refine ⟨_, by simpa using hcomp, by simp, fun _ => ⟨by simp, rfl⟩,
        fun habs => absurd habs (by simp)⟩
    | cons p0 pre' =>
      have hk0 : k0 = p0 := by simp at hfirst; exact hfirst.symm
      subst hk0
      have hlen' : (k0 :: pre').length = n - 1 := by simp at hlen ⊢; omega
      have hn2 : 2 ≤ n := by simp at hlen; omega
      have hinit : initScan n conf0 = scanAfter n conf0 [] := by
        simp [initScan, scanAfter]
      have hmid := typeKeys_mid n conf0 (k0 :: pre') [] (by simp at hlen ⊢; omega)
      have hone := typeKeys_one n (scanAfter n conf0 (k0 :: pre')) c tq
      have hstep := handleScanKey_last n conf0 k0 pre' c tq hlen' hn2
      rw [typeKeys_append, hinit, hmid]
      simp only [List.nil_append, Option.some_bind]
      rw [hone, hstep]
      by_cases hq : tq - k0.2 < 1/4
      · rw [if_pos hq]
        refine ⟨_, rfl, by simp, fun _ => ⟨by simp, rfl⟩,
          fun habs => absurd habs (by simpa using hq)⟩
      · rw [if_neg hq]
        refine ⟨_, rfl, by simp, fun hlt => absurd hlt (by simpa using hq),
          fun _ => ⟨rfl, rfl⟩⟩

theorem c7_scanner_witness :
    ∃ st, typeKeys 2 (initScan 2 "") [('A', 0), ('B', 1/10)] = some st ∧
      st.value = ⟨[('A', (0 : ℚ)), ('B', 1/10)].map Prod.fst⟩ ∧
      ((('B', (1/10 : ℚ)).2 - ('A', (0 : ℚ)).2 < 1/4) →
        st.conf = ⟨[('A', (0 : ℚ)), ('B', 1/10)].map Prod.fst⟩ ∧
        st.focusMoved = true) ∧
      (1/4 ≤ ('B', (1/10 : ℚ)).2 - ('A', (0 : ℚ)).2 →
        st.conf = "" ∧ st.focusMoved = false) :=
  c7_scanner 2 "" [('A', 0), ('B', 1/10)] rfl (by decide) ('A', 0) ('B', 1/10)
    rfl rfl
